import Mathlib

/-!
Verification development for the coolify-cli log engine.

Shallow embedding of:
  * `followLogs` per-tick snapshot differ (cmd logs command),
  * `ParseLogContent` / `extractTimestamp` line classifier (client package),
  * `FormatLogLine` presentation formatter (internal/formatter package).

Go strings are modelled as `List Char`.  Wall-clock dependence
(`time.Now()`, the local time zone used by `time.Unix`) is made explicit
through an `Env` parameter.  Go's panicking string slice is modelled with
`Option`.
-/

/-- Go strings, modelled as lists of characters. -/
abbrev GoString := List Char

/-- Shorthand turning a Lean string literal into a `GoString`. -/
def str (s : String) : GoString := s.data

/-- Character class of Go's `unicode.IsSpace` (used by `strings.TrimSpace`):
the Unicode White_Space property. -/
def isGoSpace (c : Char) : Bool :=
  [9, 10, 11, 12, 13, 32, 0x85, 0xA0, 0x1680, 0x2028, 0x2029,
    0x202F, 0x205F, 0x3000].contains c.toNat
  || (0x2000 ≤ c.toNat && c.toNat ≤ 0x200A)

/-- Character class of the regexp escape `\s` in Go's regexp package:
`[\t\n\f\r ]`. -/
def reSpace (c : Char) : Bool :=
  [9, 10, 12, 13, 32].contains c.toNat

/-- `strings.TrimSpace`: drop leading and trailing white space. -/
def trimSpace (l : GoString) : GoString :=
  ((l.dropWhile isGoSpace).reverse.dropWhile isGoSpace).reverse

/-- `strings.Split(s, "\n")`: split on every newline; the result is never
empty and an empty input yields one empty field. -/
def goSplit : GoString → List GoString
  | [] => [[]]
  | c :: rest =>
    if c = '\n' then [] :: goSplit rest
    else
      match goSplit rest with
      | h :: t => (c :: h) :: t
      | [] => [[c]]

/-- `strings.Join(l, "\n")`. -/
def joinNl : List GoString → GoString
  | [] => []
  | [x] => x
  | x :: y :: t => x ++ '\n' :: joinNl (y :: t)

/-- `strings.Join(l, " ")` (used by the formatter's `strings.Join(parts, " ")`). -/
def joinSp : List GoString → GoString
  | [] => []
  | [x] => x
  | x :: y :: t => x ++ ' ' :: joinSp (y :: t)

/-- The follow loop's line preparation: split the blob on newlines and
drop a single wholly-empty trailing line
(`if len(lines) > 0 && strings.TrimSpace(lines[len(lines)-1]) == ""`). -/
def splitDrop (logs : GoString) : List GoString :=
  match (goSplit logs).getLast? with
  | some last =>
    if trimSpace last = [] then (goSplit logs).dropLast else goSplit logs
  | none => goSplit logs

/-- The follow loop's backward anchor scan
(`for i := len(lines) - 1; i >= 0; i--`): index of the LAST element whose
trimmed text equals `target`, if any. -/
def scanBack (target : GoString) : List GoString → Option Nat
  | [] => none
  | l :: t =>
    match scanBack target t with
    | some i => some (i + 1)
    | none => if trimSpace l = target then some 0 else none

/-- After an ESC character: consume `[` `[0-9;]*` `m` and return the rest,
mirroring the regexp `\x1b\[[0-9;]*m` (deterministic because `m` is not in
the repeated class). -/
def ansiBody (l : GoString) : Option GoString :=
  match l with
  | '[' :: rest =>
    match rest.dropWhile (fun c => c.isDigit || c = ';') with
    | 'm' :: r => some r
    | _ => none
  | _ => none

/-- Fuel-indexed worker for `stripAnsi`; the fuel is always at least the
length of the input, so the fuel-0 case is never reached. -/
def stripAnsiGo : Nat → GoString → GoString
  | 0, s => s
  | _ + 1, [] => []
  | fuel + 1, c :: rest =>
    if c = '\x1b' then
      match ansiBody rest with
      | some r => stripAnsiGo fuel r
      | none => c :: stripAnsiGo fuel rest
    else c :: stripAnsiGo fuel rest

/-- `ansiRegex.ReplaceAllString(logContent, "")` with
`ansiRegex = \x1b\[[0-9;]*m`: delete every ANSI color escape. -/
def stripAnsi (s : GoString) : GoString := stripAnsiGo s.length s

/-- Match a literal: if `pat` is a prefix of `l`, return the remainder. -/
def lit : GoString → GoString → Option GoString
  | [], l => some l
  | p :: ps, c :: cs => if c = p then lit ps cs else none
  | _ :: _, [] => none

/-- `X+` for a character class `p` followed by a literal not in the class:
greedy (maximal-munch) one-or-more repetition, returning the run and the
rest.  For every class use in the source patterns the following literal is
outside the class, so greedy matching with no backtracking is exact. -/
def classPlus (p : Char → Bool) (l : GoString) : Option (GoString × GoString) :=
  let run := l.takeWhile p
  if run = [] then none else some (run, l.dropWhile p)

/-- The request-id character class `[a-f0-9-]`. -/
def isIdChar (c : Char) : Bool := ('a' ≤ c && c ≤ 'f') || c.isDigit || c = '-'

/-- The class `[^\s]` (any character that is not regexp white space). -/
def isNonSpaceRe (c : Char) : Bool := !(reSpace c)

/-- The class `.` (any character but newline). -/
def isDotChar (c : Char) : Bool := c ≠ '\n'

/-- The HTTP verb alternation `(GET|POST|PUT|DELETE|PATCH)`; no alternative
is a prefix of another, so ordered first-match is exact. -/
def matchVerb (l : GoString) : Option (GoString × GoString) :=
  match lit (str "GET") l with
  | some r => some (str "GET", r)
  | none =>
  match lit (str "POST") l with
  | some r => some (str "POST", r)
  | none =>
  match lit (str "PUT") l with
  | some r => some (str "PUT", r)
  | none =>
  match lit (str "DELETE") l with
  | some r => some (str "DELETE", r)
  | none =>
  match lit (str "PATCH") l with
  | some r => some (str "PATCH", r)
  | none => none

/-- Unanchored search: try the position matcher at every start position,
left to right (Go's leftmost match for `FindStringSubmatch`). -/
def searchSub (m : GoString → Option α) : GoString → Option α
  | [] => m []
  | c :: t =>
    match m (c :: t) with
    | some r => some r
    | none => searchSub m t

/-- Position matcher for
`INFO \((\d+)\): ([a-f0-9-]+) (GET|POST|PUT|DELETE|PATCH) (http://[^\s]+) - (\d+) query params, (\d+) body keys`;
returns (requestID, method, url). -/
def httpRequestAt (l : GoString) : Option (GoString × GoString × GoString) := do
  let l ← lit (str "INFO (") l
  let (_, l) ← classPlus Char.isDigit l
  let l ← lit (str "): ") l
  let (rid, l) ← classPlus isIdChar l
  let l ← lit (str " ") l
  let (verb, l) ← matchVerb l
  let l ← lit (str " ") l
  let l ← lit (str "http://") l
  let (tailPart, l) ← classPlus isNonSpaceRe l
  let l ← lit (str " - ") l
  let (_, l) ← classPlus Char.isDigit l
  let l ← lit (str " query params, ") l
  let (_, l) ← classPlus Char.isDigit l
  let _ ← lit (str " body keys") l
  pure (rid, verb, (str "http://") ++ tailPart)

/-- `httpRequestPattern.FindStringSubmatch`. -/
def httpRequestMatch (l : GoString) : Option (GoString × GoString × GoString) :=
  searchSub httpRequestAt l

/-- Position matcher for `INFO \((\d+)\): ([a-f0-9-]+) Response: (\d+)`;
returns (requestID, status). -/
def httpResponseAt (l : GoString) : Option (GoString × GoString) := do
  let l ← lit (str "INFO (") l
  let (_, l) ← classPlus Char.isDigit l
  let l ← lit (str "): ") l
  let (rid, l) ← classPlus isIdChar l
  let l ← lit (str " Response: ") l
  let (st, _) ← classPlus Char.isDigit l
  pure (rid, st)

/-- `httpResponsePattern.FindStringSubmatch`. -/
def httpResponseMatch (l : GoString) : Option (GoString × GoString) :=
  searchSub httpResponseAt l

/-- Position matcher for `INFO \((\d+)\): ([a-f0-9-]+) Auth via Bearer Token`. -/
def authAt (l : GoString) : Option GoString := do
  let l ← lit (str "INFO (") l
  let (_, l) ← classPlus Char.isDigit l
  let l ← lit (str "): ") l
  let (rid, l) ← classPlus isIdChar l
  let _ ← lit (str " Auth via Bearer Token") l
  pure rid

/-- `authPattern.FindStringSubmatch`. -/
def authMatch (l : GoString) : Option GoString := searchSub authAt l

/-- Anchored matcher for `^\s*traceId: "([a-f0-9-]+)"`. -/
def traceIdMatch (l : GoString) : Option GoString := do
  let l := l.dropWhile reSpace
  let l ← lit (str "traceId: \"") l
  let (rid, l) ← classPlus isIdChar l
  let _ ← lit (str "\"") l
  pure rid

/-- Position matcher for `INFO \((\d+)\): ([a-f0-9-]+) (.+)`;
returns (requestID, message). -/
def genericInfoAt (l : GoString) : Option (GoString × GoString) := do
  let l ← lit (str "INFO (") l
  let (_, l) ← classPlus Char.isDigit l
  let l ← lit (str "): ") l
  let (rid, l) ← classPlus isIdChar l
  let l ← lit (str " ") l
  let (msg, _) ← classPlus isDotChar l
  pure (rid, msg)

/-- `genericInfoPattern.FindStringSubmatch`. -/
def genericInfoMatch (l : GoString) : Option (GoString × GoString) :=
  searchSub genericInfoAt l

/-- Position matcher for `INFO \((\d+)\): (.+)`; returns the message. -/
def simpleInfoAt (l : GoString) : Option GoString := do
  let l ← lit (str "INFO (") l
  let (_, l) ← classPlus Char.isDigit l
  let l ← lit (str "): ") l
  let (msg, _) ← classPlus isDotChar l
  pure msg

/-- `simpleInfoPattern.FindStringSubmatch`. -/
def simpleInfoMatch (l : GoString) : Option GoString := searchSub simpleInfoAt l

/-- Exactly `n` digits; returns the remainder. -/
def digitsN : Nat → GoString → Option GoString
  | 0, l => some l
  | n + 1, c :: t => if c.isDigit then digitsN n t else none
  | _ + 1, [] => none

/-- Anchored matcher for the fallback-branch regexp
`^\d{4}-\d{2}-\d{2}T\d{2}:\d{2}:\d{2}(\.\d+)?Z?\s*`; returns the text that
remains after removing the matched prefix (`strings.TrimPrefix`). -/
def leadTsMatch (l : GoString) : Option GoString := do
  let r ← digitsN 4 l
  let r ← lit (str "-") r
  let r ← digitsN 2 r
  let r ← lit (str "-") r
  let r ← digitsN 2 r
  let r ← lit (str "T") r
  let r ← digitsN 2 r
  let r ← lit (str ":") r
  let r ← digitsN 2 r
  let r ← lit (str ":") r
  let r ← digitsN 2 r
  let r := match r with
    | '.' :: r2 =>
      match classPlus Char.isDigit r2 with
      | some (_, r3) => r3
      | none => '.' :: r2
    | _ => r
  let r := match r with
    | 'Z' :: r2 => r2
    | _ => r
  pure (r.dropWhile reSpace)

/-- A civil date-time, the result of Go's `time.Parse`/`time.Unix` as far as
this program observes it (it only ever reformats the wall-clock fields). -/
structure DateTimeG where
  year : Int
  month : Nat
  day : Nat
  hour : Nat
  minute : Nat
  second : Nat
deriving DecidableEq, Repr

/-- The ambient clock environment: `time.Now()` and the local zone offset
used by `time.Unix` (minutes east of UTC). -/
structure Env where
  now : DateTimeG
  tzOffsetMin : Int
deriving DecidableEq, Repr

/-- Decimal digits of `n` (most significant first); fuel-driven worker. -/
def natDigitsAux : Nat → Nat → List Char
  | 0, _ => []
  | _ + 1, 0 => []
  | f + 1, n => natDigitsAux f (n / 10) ++ [Char.ofNat (48 + n % 10)]

/-- Decimal rendering of a natural number. -/
def natDigits (n : Nat) : List Char :=
  if n = 0 then ['0'] else natDigitsAux (n + 1) n

/-- Left-pad with zeros to width `w`. -/
def padZeros (w : Nat) (ds : List Char) : List Char :=
  List.replicate (w - ds.length) '0' ++ ds

/-- Two-digit zero-padded field (Go layout `01`, `02`, `15`, `04`, `05`). -/
def pad2 (n : Nat) : GoString := padZeros 2 (natDigits n)

/-- Four-digit zero-padded year (Go layout `2006`; year 0 prints `0000`). -/
def pad4Year (y : Int) : GoString :=
  if y < 0 then '-' :: padZeros 4 (natDigits (-y).toNat)
  else padZeros 4 (natDigits y.toNat)

/-- `t.Format("2006-01-02 15:04:05")`, the single display format. -/
def formatDT (d : DateTimeG) : GoString :=
  pad4Year d.year ++ '-' :: pad2 d.month ++ '-' :: pad2 d.day ++
    ' ' :: pad2 d.hour ++ ':' :: pad2 d.minute ++ ':' :: pad2 d.second

/-- Proleptic-Gregorian leap year, as Go's time package computes it
(year 0 is a leap year). -/
def isLeapYear (y : Int) : Bool :=
  (y % 4 = 0 && y % 100 ≠ 0) || y % 400 = 0

/-- Days in a month for Go's validation of parsed dates. -/
def daysInMonth (m : Nat) (y : Int) : Nat :=
  if m = 1 then 31 else if m = 2 then (if isLeapYear y then 29 else 28)
  else if m = 3 then 31 else if m = 4 then 30 else if m = 5 then 31
  else if m = 6 then 30 else if m = 7 then 31 else if m = 8 then 31
  else if m = 9 then 30 else if m = 10 then 31 else if m = 11 then 30
  else if m = 12 then 31 else 0

/-- The range checks `time.Parse` performs on the fields it read
(month, day-of-month, hour, minute, second out of range are errors). -/
def validDT (d : DateTimeG) : Bool :=
  1 ≤ d.month && d.month ≤ 12 && 1 ≤ d.day && d.day ≤ daysInMonth d.month d.year
    && d.hour < 24 && d.minute < 60 && d.second < 60

/-- Exactly `n` digits read as a number; returns the value and remainder. -/
def digitsNv : Nat → Nat → GoString → Option (Nat × GoString)
  | 0, acc, l => some (acc, l)
  | n + 1, acc, c :: t =>
    if c.isDigit then digitsNv n (acc * 10 + (c.toNat - 48)) t else none
  | _ + 1, _, [] => none

/-- Read the common `\d{2}:\d{2}:\d{2}` clock part. -/
def readClock (l : GoString) : Option (Nat × Nat × Nat × GoString) := do
  let (h, r) ← digitsNv 2 0 l
  let r ← lit (str ":") r
  let (mi, r) ← digitsNv 2 0 r
  let r ← lit (str ":") r
  let (s, r) ← digitsNv 2 0 r
  pure (h, mi, s, r)

/-- Read the common `\d{4}-\d{2}-\d{2}T\d{2}:\d{2}:\d{2}` ISO date-time
prefix shared by the first five patterns. -/
def readIsoCore (l : GoString) : Option (DateTimeG × GoString) := do
  let (y, r) ← digitsNv 4 0 l
  let r ← lit (str "-") r
  let (mo, r) ← digitsNv 2 0 r
  let r ← lit (str "-") r
  let (d, r) ← digitsNv 2 0 r
  let r ← lit (str "T") r
  let (h, mi, s, r) ← readClock r
  pure (⟨(y : Int), mo, d, h, mi, s⟩, r)

/-- Pattern 1: `^(\d{4}-\d{2}-\d{2}T\d{2}:\d{2}:\d{2}\.\d{9}Z)` with layout
`2006-01-02T15:04:05.000000000Z`. -/
def tsAttempt1 (l : GoString) : Option GoString := do
  let (dt, r) ← readIsoCore l
  let r ← lit (str ".") r
  let r ← digitsN 9 r
  let _ ← lit (str "Z") r
  if validDT dt then pure (formatDT dt) else none

/-- Pattern 2: `^(\d{4}-\d{2}-\d{2}T\d{2}:\d{2}:\d{2}\.\d{6}Z?)` with layout
`2006-01-02T15:04:05.000000Z`: the layout demands a literal `Z`, so the
parse succeeds only when the optional `Z` was captured. -/
def tsAttempt2 (l : GoString) : Option GoString := do
  let (dt, r) ← readIsoCore l
  let r ← lit (str ".") r
  let r ← digitsN 6 r
  match r with
  | 'Z' :: _ => if validDT dt then pure (formatDT dt) else none
  | _ => none

/-- Pattern 3: like pattern 2 with three fractional digits and layout
`2006-01-02T15:04:05.000Z`. -/
def tsAttempt3 (l : GoString) : Option GoString := do
  let (dt, r) ← readIsoCore l
  let r ← lit (str ".") r
  let r ← digitsN 3 r
  match r with
  | 'Z' :: _ => if validDT dt then pure (formatDT dt) else none
  | _ => none

/-- Pattern 4: `^(\d{4}-\d{2}-\d{2}T\d{2}:\d{2}:\d{2}Z?)` with layout
`2006-01-02T15:04:05Z` (again, only the captured-`Z` case parses). -/
def tsAttempt4 (l : GoString) : Option GoString := do
  let (dt, r) ← readIsoCore l
  match r with
  | 'Z' :: _ => if validDT dt then pure (formatDT dt) else none
  | _ => none

/-- Pattern 5: `^(\d{4}-\d{2}-\d{2}T\d{2}:\d{2}:\d{2}[+-]\d{2}:\d{2})` with
layout `2006-01-02T15:04:05-07:00`; the output reprints the wall-clock
fields as read. -/
def tsAttempt5 (l : GoString) : Option GoString := do
  let (dt, r) ← readIsoCore l
  match r with
  | c :: r2 =>
    if c = '+' || c = '-' then do
      let (_, r3) ← digitsNv 2 0 r2
      let r3 ← lit (str ":") r3
      let (_, _) ← digitsNv 2 0 r3
      if validDT dt then pure (formatDT dt) else none
    else none
  | [] => none

/-- Pattern 6: `^(\d{4}-\d{2}-\d{2} \d{2}:\d{2}:\d{2})` with layout
`2006-01-02 15:04:05`. -/
def tsAttempt6 (l : GoString) : Option GoString := do
  let (y, r) ← digitsNv 4 0 l
  let r ← lit (str "-") r
  let (mo, r) ← digitsNv 2 0 r
  let r ← lit (str "-") r
  let (d, r) ← digitsNv 2 0 r
  let r ← lit (str " ") r
  let (h, mi, s, _) ← readClock r
  let dt : DateTimeG := ⟨(y : Int), mo, d, h, mi, s⟩
  if validDT dt then pure (formatDT dt) else none

/-- Go's case-insensitive three-letter month-name lookup used by
`time.Parse` for the `Jan` layout element. -/
def monthNum (a b c : Char) : Option Nat :=
  let k : GoString := [a.toLower, b.toLower, c.toLower]
  if k = str "jan" then some 1 else if k = str "feb" then some 2
  else if k = str "mar" then some 3 else if k = str "apr" then some 4
  else if k = str "may" then some 5 else if k = str "jun" then some 6
  else if k = str "jul" then some 7 else if k = str "aug" then some 8
  else if k = str "sep" then some 9 else if k = str "oct" then some 10
  else if k = str "nov" then some 11 else if k = str "dec" then some 12
  else none

/-- The day field `\d{1,2}` followed by a literal space: greedy two digits,
backing off to one (a shorter match must be followed by a digit, so the
explicit two-case analysis is exact). -/
def readSyslogDay (l : GoString) : Option (Nat × GoString) :=
  match l with
  | c1 :: c2 :: ' ' :: r =>
    if c1.isDigit && c2.isDigit then
      some ((c1.toNat - 48) * 10 + (c2.toNat - 48), r)
    else if c1.isDigit && !c2.isDigit then none
    else none
  | c1 :: ' ' :: r => if c1.isDigit then some (c1.toNat - 48, r) else none
  | _ => none

/-- Pattern 7 (syslog): regexp `^([A-Za-z]{3} \d{1,2} \d{2}:\d{2}:\d{2})`.
`time.Parse("Jan 2 15:04:05", m)` defaults the missing year to 0 and
SUCCEEDS whenever month name and field ranges are valid, so the matched
text is reformatted with year 0.  Only if that parse fails does the code
retry with the current year prepended (`fmt.Sprintf("%d %s", ...)`). -/
def tsAttempt7 (e : Env) (l : GoString) : Option GoString :=
  match l with
  | a :: b :: c :: ' ' :: r =>
    if a.isAlpha && b.isAlpha && c.isAlpha then
      match readSyslogDay r with
      | some (d, r2) =>
        match readClock r2 with
        | some (h, mi, s, _) =>
          match monthNum a b c with
          | some mo =>
            let dt0 : DateTimeG := ⟨0, mo, d, h, mi, s⟩
            if validDT dt0 then some (formatDT dt0)
            else
              let dt1 : DateTimeG := ⟨e.now.year, mo, d, h, mi, s⟩
              if validDT dt1 then some (formatDT dt1) else none
          | none => none
        | none => none
      | none => none
    else none
  | _ => none

/-- `time.Unix(sec, 0)` in the local zone: convert an epoch count to civil
fields using the standard days-from-epoch algorithm, shifted by the
environment's zone offset. -/
def epochToLocal (e : Env) (secs : Nat) : DateTimeG :=
  let total : Int := (secs : Int) + e.tzOffsetMin * 60
  let days : Int := Int.fdiv total 86400
  let rem : Nat := (total - days * 86400).toNat
  let z : Int := days + 719468
  let era : Int := Int.fdiv z 146097
  let doe : Nat := (z - era * 146097).toNat
  let yoe : Nat := (doe - doe / 1460 + doe / 36524 - doe / 146096) / 365
  let doy : Nat := doe - (365 * yoe + yoe / 4 - yoe / 100)
  let mp : Nat := (5 * doy + 2) / 153
  let d : Nat := doy - (153 * mp + 2) / 5 + 1
  let m : Nat := if mp < 10 then mp + 3 else mp - 9
  let y : Int := (yoe : Int) + era * 400 + (if m ≤ 2 then 1 else 0)
  ⟨y, m, d, rem / 3600, rem / 60 % 60, rem % 60⟩

/-- Pattern 8: `^\[(\d{10})\]`, a bracketed Unix epoch; ten digits always
fit in an int64, so `strconv.ParseInt` cannot fail. -/
def tsAttempt8 (e : Env) (l : GoString) : Option GoString := do
  let r ← lit (str "[") l
  let (v, r) ← digitsNv 10 0 r
  let _ ← lit (str "]") r
  pure (formatDT (epochToLocal e v))

/-- Pattern 9: `^\[(\d{4}-\d{2}-\d{2} \d{2}:\d{2}:\d{2})\]` with layout
`2006-01-02 15:04:05`. -/
def tsAttempt9 (l : GoString) : Option GoString := do
  let r ← lit (str "[") l
  let (y, r) ← digitsNv 4 0 r
  let r ← lit (str "-") r
  let (mo, r) ← digitsNv 2 0 r
  let r ← lit (str "-") r
  let (d, r) ← digitsNv 2 0 r
  let r ← lit (str " ") r
  let (h, mi, s, r) ← readClock r
  let _ ← lit (str "]") r
  let dt : DateTimeG := ⟨(y : Int), mo, d, h, mi, s⟩
  if validDT dt then pure (formatDT dt) else none

/-- Pattern 10: `^(\d{4}/\d{2}/\d{2} \d{2}:\d{2}:\d{2})` with layout
`2006/01/02 15:04:05`. -/
def tsAttempt10 (l : GoString) : Option GoString := do
  let (y, r) ← digitsNv 4 0 l
  let r ← lit (str "/") r
  let (mo, r) ← digitsNv 2 0 r
  let r ← lit (str "/") r
  let (d, r) ← digitsNv 2 0 r
  let r ← lit (str " ") r
  let (h, mi, s, _) ← readClock r
  let dt : DateTimeG := ⟨(y : Int), mo, d, h, mi, s⟩
  if validDT dt then pure (formatDT dt) else none

/-- `extractTimestamp`: try the ordered pattern list; a pattern whose regexp
does not match, or whose `time.Parse` fails, falls through to the next;
when everything fails, fall back to `time.Now()` formatted. -/
def extractTimestamp (e : Env) (line : GoString) : GoString :=
  match tsAttempt1 line with
  | some r => r
  | none =>
  match tsAttempt2 line with
  | some r => r
  | none =>
  match tsAttempt3 line with
  | some r => r
  | none =>
  match tsAttempt4 line with
  | some r => r
  | none =>
  match tsAttempt5 line with
  | some r => r
  | none =>
  match tsAttempt6 line with
  | some r => r
  | none =>
  match tsAttempt7 e line with
  | some r => r
  | none =>
  match tsAttempt8 e line with
  | some r => r
  | none =>
  match tsAttempt9 line with
  | some r => r
  | none =>
  match tsAttempt10 line with
  | some r => r
  | none => formatDT e.now

/-- `client.ParsedLogLine`. -/
structure ParsedLogLine where
  Timestamp : GoString
  Level : GoString
  RequestID : GoString
  Method : GoString
  URL : GoString
  Status : GoString
  Message : GoString
  Raw : GoString
deriving DecidableEq, Repr

/-- Loop body of `ParseLogContent` for one (already trimmed, non-empty)
line: ordered first-match classification.  Every branch keeps
`Raw := line` and `Timestamp := extractTimestamp` as initialised before
the pattern cascade. -/
def classifyLine (e : Env) (line : GoString) : ParsedLogLine :=
  match httpRequestMatch line with
  | some (rid, verb, url) =>
    { Timestamp := extractTimestamp e line, Level := str "INFO",
      RequestID := rid, Method := verb, URL := url, Status := [],
      Message := verb ++ ' ' :: url, Raw := line }
  | none =>
  match httpResponseMatch line with
  | some (rid, st) =>
    { Timestamp := extractTimestamp e line, Level := str "INFO",
      RequestID := rid, Method := [], URL := [], Status := st,
      Message := (str "Response: ") ++ st, Raw := line }
  | none =>
  match authMatch line with
  | some rid =>
    { Timestamp := extractTimestamp e line, Level := str "INFO",
      RequestID := rid, Method := [], URL := [], Status := [],
      Message := str "Auth via Bearer Token", Raw := line }
  | none =>
  match traceIdMatch line with
  | some rid =>
    { Timestamp := extractTimestamp e line, Level := str "INFO",
      RequestID := rid, Method := [], URL := [], Status := [],
      Message := (str "traceId: \"") ++ rid ++ [ '"' ], Raw := line }
  | none =>
  match genericInfoMatch line with
  | some (rid, msg) =>
    { Timestamp := extractTimestamp e line, Level := str "INFO",
      RequestID := rid, Method := [], URL := [], Status := [],
      Message := msg, Raw := line }
  | none =>
  match simpleInfoMatch line with
  | some msg =>
    { Timestamp := extractTimestamp e line, Level := str "INFO",
      RequestID := [], Method := [], URL := [], Status := [],
      Message := msg, Raw := line }
  | none =>
    { Timestamp := extractTimestamp e line, Level := str "INFO",
      RequestID := [], Method := [], URL := [], Status := [],
      Message := match leadTsMatch line with
        | some rest => trimSpace rest
        | none => line,
      Raw := line }

/-- `client.ParseLogContent`: strip ANSI escapes, split into lines, trim
each, skip empties, classify the rest in order. -/
def ParseLogContent (e : Env) (logContent : GoString) : List ParsedLogLine :=
  if logContent = [] then []
  else
    (((goSplit (stripAnsi logContent)).map trimSpace).filter
      (fun l => l ≠ [])).map (classifyLine e)

/-- `parseLogLine` (cmd package): classify a single raw line through
`ParseLogContent`, falling back to a raw INFO record when nothing comes
back (blank line). -/
def parseLogLine (e : Env) (line : GoString) : ParsedLogLine :=
  match ParseLogContent e line with
  | p :: _ => p
  | [] =>
    { Timestamp := [], Level := str "INFO", RequestID := [], Method := [],
      URL := [], Status := [], Message := line, Raw := line }

/-- `displayFormattedLogs`: split the segment, trim each line, skip blank
lines, and parse (the formatting/printing itself returns the records the
loop would hand to `FormatLogLine`). -/
def displayFormattedLogs (e : Env) (rawLogs : GoString) : List ParsedLogLine :=
  if rawLogs = [] then []
  else
    (((goSplit rawLogs).map trimSpace).filter (fun l => l ≠ [])).map
      (parseLogLine e)

/-- The follow loop's mutable tail state: `lastLine`, `prevLen`,
`initialized`. -/
structure TailState where
  lastLine : GoString
  prevLen : Nat
  initialized : Bool
deriving DecidableEq, Repr

/-- The anchor phase of the TRACKING branch: `startIdx` after the backward
content scan (`0` both when the anchor is missing and when `lastLine` is
empty, exactly as in the source, where `startIdx == 0` doubles as the
not-found flag). -/
def anchorStart (s : TailState) (lines : List GoString) : Nat :=
  if s.lastLine ≠ [] then
    match scanBack (trimSpace s.lastLine) lines with
    | some i => i + 1
    | none => 0
  else 0

/-- The complete `startIdx` computation of one tick of `followLogs`:
first-poll tail window when uninitialized; otherwise content anchor,
then length-delta, then rotation re-seed.  `tail` is the `--tail` flag
(Go int; a non-positive flag disables the window exactly like 0, so Nat
suffices). -/
def startIdxFor (tail : Nat) (s : TailState) (lines : List GoString) : Nat :=
  if s.initialized = false then
    if 0 < tail ∧ tail < lines.length then lines.length - tail else 0
  else if anchorStart s lines = 0 then
    if s.prevLen < lines.length then s.prevLen
    else if 0 < tail ∧ tail < lines.length then lines.length - tail else 0
  else anchorStart s lines

/-- One successful tick of `followLogs`: prepare lines, compute `startIdx`,
emit the joined suffix through `displayFormattedLogs`, and record the new
last line, count and initialized flag. -/
def pollStep (e : Env) (tail : Nat) (s : TailState) (logs : GoString) :
    List ParsedLogLine × TailState :=
  let lines := splitDrop logs
  if hne : lines = [] then ([], s)
  else
    let si := startIdxFor tail s lines
    (if si < lines.length then
       displayFormattedLogs e (joinNl (lines.drop si))
     else [],
     ⟨lines.getLast hne, lines.length, true⟩)

/-- One tick of the follow loop including the fetch: a failed fetch (of
either error kind) prints a notice and `continue`s — no emission, no state
change. -/
def pollTick (e : Env) (tail : Nat) (s : TailState)
    (fetched : Except GoString GoString) : List ParsedLogLine × TailState :=
  match fetched with
  | Except.error _ => ([], s)
  | Except.ok logs => pollStep e tail s logs

/-- The follow loop run over a finite schedule of fetch results,
concatenating everything emitted and threading the tail state. -/
def runPolls (e : Env) (tail : Nat) (s : TailState) :
    List (Except GoString GoString) → List ParsedLogLine × TailState
  | [] => ([], s)
  | r :: rs =>
    let (out, s2) := pollTick e tail s r
    let (outs, s3) := runPolls e tail s2 rs
    (out ++ outs, s3)

/-- ANSI color constants from the formatter package. -/
def ColReset : GoString := str "\x1b[0m"
def ColBold : GoString := str "\x1b[1m"
def ColRed : GoString := str "\x1b[31m"
def ColGreen : GoString := str "\x1b[32m"
def ColYellow : GoString := str "\x1b[33m"
def ColBlue : GoString := str "\x1b[34m"
def ColPurple : GoString := str "\x1b[35m"
def ColCyan : GoString := str "\x1b[36m"
def ColGray : GoString := str "\x1b[37m"
def ColWhite : GoString := str "\x1b[97m"
def ColBgRed : GoString := str "\x1b[41m"

/-- `formatter.LogFormatter`. -/
structure LogFormatter where
  ShowTimestamps : Bool
  ShowRequestIDs : Bool
  ColorOutput : Bool
  CompactMode : Bool
deriving DecidableEq, Repr

/-- `strings.ToUpper` (ASCII suffices for the level/method strings used). -/
def toUpperGo (l : GoString) : GoString := l.map Char.toUpper

/-- `colorize`: wrap in color codes when color output is on. -/
def colorize (f : LogFormatter) (color text : GoString) : GoString :=
  if f.ColorOutput = false then text else color ++ text ++ ColReset

/-- `getLevelColor`. -/
def getLevelColor (level : GoString) : GoString :=
  let u := toUpperGo level
  if u = str "ERROR" then ColRed
  else if u = str "WARN" ∨ u = str "WARNING" then ColYellow
  else if u = str "INFO" then ColGreen
  else if u = str "DEBUG" then ColBlue
  else ColWhite

/-- `getMethodColor`. -/
def getMethodColor (method : GoString) : GoString :=
  let u := toUpperGo method
  if u = str "GET" then ColGreen
  else if u = str "POST" then ColBlue
  else if u = str "PUT" then ColYellow
  else if u = str "DELETE" then ColRed
  else if u = str "PATCH" then ColPurple
  else ColWhite

/-- `getStatusColor`: dispatch on the first status byte. -/
def getStatusColor (status : GoString) : GoString :=
  match status with
  | [] => ColWhite
  | c :: _ =>
    if c = '2' then ColGreen
    else if c = '3' then ColYellow
    else if c = '4' then ColRed
    else if c = '5' then ColBgRed ++ ColWhite
    else ColWhite

/-- `formatMessage`: request shape, then response shape, then the plain
message. -/
def formatMessage (f : LogFormatter) (log : ParsedLogLine) : GoString :=
  if log.Method ≠ [] ∧ log.URL ≠ [] then
    colorize f (getMethodColor log.Method) log.Method ++
      ' ' :: colorize f ColCyan log.URL
  else if log.Status ≠ [] then
    colorize f (getStatusColor log.Status) ((str "→ ") ++ log.Status)
  else log.Message

/-- Go's slice expression `s[:n]`: in range it yields the prefix, out of
range it panics (modelled as `none`).  The request-id characters produced
by the classifier are ASCII, so byte length and character length agree. -/
def sliceGoPrefix (s : GoString) (n : Nat) : Option GoString :=
  if n ≤ s.length then some (s.take n) else none

/-- `FormatLogLine`: assemble the timestamp, level and (optionally) the
first eight characters of the request id, then the message.  The
`log.RequestID[:8]` slice panics when a non-empty request id is shorter
than eight bytes; the panic is the `none` result. -/
def FormatLogLine (f : LogFormatter) (log : ParsedLogLine) :
    Option GoString :=
  let parts : List GoString :=
    if f.ShowTimestamps ∧ log.Timestamp ≠ [] then
      [colorize f ColGray ('[' :: log.Timestamp ++ [']'])]
    else []
  let parts :=
    if log.Level ≠ [] then
      parts ++ [colorize f (getLevelColor log.Level) ('[' :: log.Level ++ [']'])]
    else parts
  let withRid : Option (List GoString) :=
    if f.ShowRequestIDs ∧ log.RequestID ≠ [] then
      (sliceGoPrefix log.RequestID 8).map
        (fun p => parts ++ [colorize f ColPurple ('[' :: p ++ [']'])])
    else some parts
  match withRid with
  | none => none
  | some parts2 => some (joinSp (parts2 ++ [formatMessage f log]))

/-- A concrete clock environment used by closed witnesses and
counterexamples: 2026-10-12 09:30:00, UTC. -/
def envA : Env := ⟨⟨2026, 10, 12, 9, 30, 0⟩, 0⟩

/-- A second concrete clock environment, one year later. -/
def envB : Env := ⟨⟨2027, 10, 12, 9, 30, 0⟩, 0⟩

/-- Erase the only clock-dependent field of a record (used to state that
classification depends on the wall clock through `Timestamp` alone). -/
def eraseTimestamp (r : ParsedLogLine) : ParsedLogLine :=
  { r with Timestamp := [] }

/-! ### Basic facts about the embedded string operations -/

theorem goSplit_ne_nil (s : GoString) : goSplit s ≠ [] := by
  induction s with
  | nil => simp [goSplit]
  | cons c rest ih =>
    by_cases hc : c = '\n'
    · simp [goSplit, hc]
    · simp only [goSplit, if_neg hc]
      cases h : goSplit rest with
      | nil => simp
      | cons a t => simp

theorem not_nl_mem_goSplit (s : GoString) : ∀ x ∈ goSplit s, '\n' ∉ x := by
  induction s with
  | nil =>
    intro x hx
    simp [goSplit] at hx
    subst hx
    simp
  | cons c rest ih =>
    intro x hx
    by_cases hc : c = '\n'
    · simp only [goSplit, if_pos hc, List.mem_cons] at hx
      rcases hx with h | h
      · subst h; simp
      · exact ih x h
    · simp only [goSplit, if_neg hc] at hx
      cases h : goSplit rest with
      | nil => exact absurd h (goSplit_ne_nil rest)
      | cons a t =>
        rw [h] at hx
        simp only [List.mem_cons] at hx
        rcases hx with h1 | h1
        · subst h1
          intro hm
          rcases List.mem_cons.mp hm with hm1 | hm1
          · exact hc hm1.symm
          · exact ih a (by rw [h]; exact List.mem_cons_self a t) hm1
        · exact ih x (by rw [h]; exact List.mem_cons_of_mem a h1)

theorem splitDrop_sub (s : GoString) : ∀ x ∈ splitDrop s, x ∈ goSplit s := by
  intro x hx
  unfold splitDrop at hx
  split at hx
  · split at hx
    · exact (List.dropLast_sublist (goSplit s)).subset hx
    · exact hx
  · exact hx

theorem splitDrop_no_nl (s : GoString) : ∀ x ∈ splitDrop s, '\n' ∉ x :=
  fun x hx => not_nl_mem_goSplit s x (splitDrop_sub s x hx)

theorem goSplit_of_no_nl (x : GoString) (h : '\n' ∉ x) : goSplit x = [x] := by
  induction x with
  | nil => rfl
  | cons c t ih =>
    have hc : c ≠ '\n' := by
      intro hc
      exact h (by rw [hc]; exact List.mem_cons_self _ _)
    have ht : '\n' ∉ t := fun hm => h (List.mem_cons_of_mem c hm)
    simp only [goSplit, if_neg hc, ih ht]

theorem goSplit_cons_ne (c : Char) (s : GoString) (hc : c ≠ '\n') :
    goSplit (c :: s) =
      match goSplit s with
      | h :: t => (c :: h) :: t
      | [] => [[c]] := by
  simp [goSplit, hc]

theorem goSplit_append_nl (a r : GoString) (h : '\n' ∉ a) :
    goSplit (a ++ '\n' :: r) = a :: goSplit r := by
  induction a with
  | nil => simp [goSplit]
  | cons c t ih =>
    have hc : c ≠ '\n' := by
      intro hc
      exact h (by rw [hc]; exact List.mem_cons_self _ _)
    have ht : '\n' ∉ t := fun hm => h (List.mem_cons_of_mem c hm)
    rw [List.cons_append, goSplit_cons_ne c _ hc, ih ht]

theorem goSplit_joinNl (l : List GoString) (h1 : l ≠ [])
    (h2 : ∀ x ∈ l, '\n' ∉ x) : goSplit (joinNl l) = l := by
  induction l with
  | nil => exact absurd rfl h1
  | cons x t ih =>
    cases t with
    | nil =>
      simpa [joinNl] using goSplit_of_no_nl x (h2 x (List.mem_cons_self x []))
    | cons y u =>
      rw [joinNl, goSplit_append_nl x _ (h2 x (List.mem_cons_self _ _)),
        ih (by simp) (fun z hz => h2 z (List.mem_cons_of_mem x hz))]

theorem joinNl_eq_nil (l : List GoString) (h1 : l ≠ []) (h : joinNl l = []) :
    l = [[]] := by
  cases l with
  | nil => exact absurd rfl h1
  | cons x t =>
    cases t with
    | nil => rw [joinNl] at h; rw [h]
    | cons y u => rw [joinNl] at h; simp at h

theorem displayFormattedLogs_join (e : Env) (l : List GoString) (h1 : l ≠ [])
    (h2 : ∀ x ∈ l, '\n' ∉ x) :
    displayFormattedLogs e (joinNl l) =
      ((l.map trimSpace).filter (fun x => x ≠ [])).map (parseLogLine e) := by
  by_cases hj : joinNl l = []
  · have hl : l = [[]] := joinNl_eq_nil l h1 hj
    subst hl
    rfl
  · rw [displayFormattedLogs, if_neg hj, goSplit_joinNl l h1 h2]

theorem scanBack_eq_none (target : GoString) (l : List GoString)
    (h : ∀ x ∈ l, trimSpace x ≠ target) : scanBack target l = none := by
  induction l with
  | nil => rfl
  | cons x t ih =>
    simp only [scanBack, ih (fun z hz => h z (List.mem_cons_of_mem x hz))]
    simp [h x (List.mem_cons_self x t)]

theorem scanBack_cons (target x : GoString) (t : List GoString) :
    scanBack target (x :: t) =
      match scanBack target t with
      | some i => some (i + 1)
      | none => if trimSpace x = target then some 0 else none := rfl

theorem scanBack_append (target : GoString) (a b : List GoString)
    (h : ∀ x ∈ b, trimSpace x ≠ target) :
    scanBack target (a ++ b) = scanBack target a := by
  induction a with
  | nil => simpa using scanBack_eq_none target b h
  | cons x t ih =>
    rw [List.cons_append, scanBack_cons, ih, scanBack_cons]

theorem scanBack_getLast (target : GoString) (l : List GoString)
    (la : GoString) (hla : l.getLast? = some la)
    (ht : trimSpace la = target) : scanBack target l = some (l.length - 1) := by
  induction l with
  | nil => simp at hla
  | cons x t ih =>
    cases t with
    | nil =>
      simp only [List.getLast?_singleton, Option.some.injEq] at hla
      subst hla
      simp [scanBack, ht]
    | cons y u =>
      rw [List.getLast?_cons_cons] at hla
      simp only [scanBack_cons, ih hla, List.length_cons]
      congr 1

theorem pollStep_eq_of_ne (e : Env) (t : Nat) (s : TailState)
    (logs : GoString) (L : List GoString) (h : splitDrop logs = L)
    (hne : L ≠ []) :
    pollStep e t s logs =
      (if startIdxFor t s L < L.length then
         displayFormattedLogs e (joinNl (L.drop (startIdxFor t s L)))
       else [],
       ⟨L.getLast hne, L.length, true⟩) := by
  subst h
  rw [pollStep, dif_neg hne]

theorem emit_suffix (e : Env) (m : List GoString) (hm : m ≠ [])
    (hnl : ∀ x ∈ m, '\n' ∉ x) (hne : ∀ x ∈ m, trimSpace x ≠ []) :
    displayFormattedLogs e (joinNl m) =
      m.map (fun x => parseLogLine e (trimSpace x)) := by
  rw [displayFormattedLogs_join e m hm hnl]
  have hfil : (m.map trimSpace).filter (fun x => x ≠ []) = m.map trimSpace := by
    apply List.filter_eq_self.mpr
    intro a ha
    rcases List.mem_map.mp ha with ⟨x, hx, hax⟩
    subst hax
    simpa using hne x hx
  rw [hfil, List.map_map]
  rfl

theorem classifyLine_Raw (e : Env) (x : GoString) :
    (classifyLine e x).Raw = x := by
  unfold classifyLine
  cases httpRequestMatch x with
  | some v => obtain ⟨a, b, c⟩ := v; rfl
  | none =>
  cases httpResponseMatch x with
  | some v => obtain ⟨a, b⟩ := v; rfl
  | none =>
  cases authMatch x with
  | some v => rfl
  | none =>
  cases traceIdMatch x with
  | some v => rfl
  | none =>
  cases genericInfoMatch x with
  | some v => obtain ⟨a, b⟩ := v; rfl
  | none =>
  cases simpleInfoMatch x with
  | some v => rfl
  | none => rfl

theorem classifyLine_eraseTimestamp (e1 e2 : Env) (x : GoString) :
    eraseTimestamp (classifyLine e1 x) = eraseTimestamp (classifyLine e2 x) := by
  unfold classifyLine eraseTimestamp
  cases httpRequestMatch x with
  | some v => obtain ⟨a, b, c⟩ := v; rfl
  | none =>
  cases httpResponseMatch x with
  | some v => obtain ⟨a, b⟩ := v; rfl
  | none =>
  cases authMatch x with
  | some v => rfl
  | none =>
  cases traceIdMatch x with
  | some v => rfl
  | none =>
  cases genericInfoMatch x with
  | some v => obtain ⟨a, b⟩ := v; rfl
  | none =>
  cases simpleInfoMatch x with
  | some v => rfl
  | none => rfl

/-! ### Claim theorems -/

/-- C3, counterexample: for the line `ESC[31mhi ESC[0m` (ANSI-colored `hi`),
the classifier stores the ANSI-stripped text `hi` in `Raw`, not the
original trimmed line, refuting `classify(ℓ).raw == trim(ℓ)` for lines
with ANSI content. -/
theorem c3_raw_preservation_counterexample :
    (parseLogLine envA (str "\x1b[31mhi\x1b[0m")).Raw ≠
      trimSpace (str "\x1b[31mhi\x1b[0m") := by decide

/-- C3, amended: the classifier's `Raw` field is the ANSI-stripped,
trimmed line — stripping happens before the split, so `Raw` equals
`trim(stripAnsi(ℓ))` per line (and `trim(ℓ)` exactly when ℓ has no ANSI
escape); the pattern branches never modify `Raw` further. -/
theorem c3_raw_preservation_amended (e : Env) (l : GoString) :
    (ParseLogContent e l).map (fun r => r.Raw) =
      ((goSplit (stripAnsi l)).map trimSpace).filter (fun x => x ≠ []) := by
  by_cases h : l = []
  · subst h; rfl
  · rw [ParseLogContent, if_neg h, List.map_map]
    have hfun : ((fun r : ParsedLogLine => r.Raw) ∘ classifyLine e) =
        fun x : GoString => x := funext fun x => classifyLine_Raw e x
    rw [hfun, List.map_id']

/-- C4, counterexample: classifying `hello` at two different wall-clock
times yields records differing in the `Timestamp` field (the no-pattern
fallback formats `time.Now()`), refuting bit-identical results for two
invocations. -/
theorem c4_idempotent_counterexample :
    ParseLogContent envA (str "hello") ≠ ParseLogContent envB (str "hello") := by
  decide

/-- C4, amended: classification is a pure function of the line except for
the `Timestamp` field; with `Timestamp` erased, two invocations at any two
clock states agree in every remaining field (Level, RequestID, Method,
URL, Status, Message, Raw). -/
theorem c4_idempotent_amended (e1 e2 : Env) (l : GoString) :
    (ParseLogContent e1 l).map eraseTimestamp =
      (ParseLogContent e2 l).map eraseTimestamp := by
  by_cases h : l = []
  · subst h; rfl
  · rw [ParseLogContent, ParseLogContent, if_neg h, if_neg h,
      List.map_map, List.map_map]
    have hfun : (eraseTimestamp ∘ classifyLine e1) =
        (eraseTimestamp ∘ classifyLine e2) :=
      funext fun x => classifyLine_eraseTimestamp e1 e2 x
    rw [hfun]

/-- C5: on `Jan 15 14:30:45` the extractor returns year 0000 — for every
clock environment — because `time.Parse("Jan 2 15:04:05", m)` succeeds
with the zero year, so the guarded current-year retry never runs.  This
contradicts the claim (and the source's own comment) that a yearless
syslog timestamp is assumed to fall in the current calendar year. -/
theorem c5_syslog_year_is_zero (e : Env) :
    extractTimestamp e (str "Jan 15 14:30:45") = str "0000-01-15 14:30:45" :=
  rfl

/-- C8: a failed fetch (any error kind) emits nothing, leaves the tail
state untouched, and the loop goes on to process the remaining schedule
exactly as if the failed tick had not happened. -/
theorem c8_fetch_failure_frame (e : Env) (t : Nat) (s : TailState)
    (err : GoString) (rest : List (Except GoString GoString)) :
    runPolls e t s (Except.error err :: rest) = runPolls e t s rest := by
  simp [runPolls, pollTick]

/-- C9: the example scenario — the request line yields method `GET`, url
`http://x/y`, message `GET http://x/y`, request id `abc123`; the response
line yields status `200`, message `Response: 200`, request id `abc123`
(for every clock environment, since these fields are clock-independent). -/
theorem c9_example_scenario (e : Env) :
    ((parseLogLine e (str "INFO (3): abc123 GET http://x/y - 0 query params, 0 body keys")).Method = str "GET" ∧
     (parseLogLine e (str "INFO (3): abc123 GET http://x/y - 0 query params, 0 body keys")).URL = str "http://x/y" ∧
     (parseLogLine e (str "INFO (3): abc123 GET http://x/y - 0 query params, 0 body keys")).Message = str "GET http://x/y" ∧
     (parseLogLine e (str "INFO (3): abc123 GET http://x/y - 0 query params, 0 body keys")).RequestID = str "abc123") ∧
    ((parseLogLine e (str "INFO (3): abc123 Response: 200")).Status = str "200" ∧
     (parseLogLine e (str "INFO (3): abc123 Response: 200")).Message = str "Response: 200" ∧
     (parseLogLine e (str "INFO (3): abc123 Response: 200")).RequestID = str "abc123") :=
  ⟨⟨rfl, rfl, rfl, rfl⟩, ⟨rfl, rfl, rfl⟩⟩

/-- C10: `FormatLogLine` is not total — the classifier produces the
3-character request id `abc` from the line `traceId: "abc"`, and with
request-id display enabled the slice `log.RequestID[:8]` is out of range
(the `none` result models the Go slice panic), contradicting the claimed
in-range safety. -/
theorem c10_format_slice_panics :
    FormatLogLine ⟨true, true, false, false⟩
      (parseLogLine envA (str "traceId: \"abc\"")) = none := by decide

/-- C6: on a first (UNINITIALIZED) poll of a blob whose prepared line
sequence has `tailLimit + 50` lines (all non-blank, as LogLines are), the
differ uses `startIdx = len - tailLimit` (the positive case of
`max(0, len - tailLimit)`) and emits exactly the last `tailLimit` lines,
in order. -/
theorem c6_first_poll_windowing (e : Env) (t : Nat) (s : TailState)
    (blob : GoString) (L : List GoString) (hL : splitDrop blob = L)
    (hinit : s.initialized = false) (ht : 0 < t)
    (hlen : L.length = t + 50) (hne : ∀ x ∈ L, trimSpace x ≠ []) :
    startIdxFor t s L = L.length - t ∧
    (pollStep e t s blob).1 =
      (L.drop 50).map (fun x => parseLogLine e (trimSpace x)) ∧
    ((pollStep e t s blob).1).length = t := by
  have hLne : L ≠ [] := by
    intro hnil
    subst hnil
    simp at hlen
  have hsi : startIdxFor t s L = L.length - t := by
    rw [startIdxFor, if_pos hinit, if_pos ⟨ht, by omega⟩]
  have hemit : (pollStep e t s blob).1 =
      (L.drop 50).map (fun x => parseLogLine e (trimSpace x)) := by
    rw [pollStep_eq_of_ne e t s blob L hL hLne, hsi]
    have h50 : L.length - t = 50 := by omega
    rw [h50, if_pos (by omega : (50 : Nat) < L.length)]
    apply emit_suffix
    · apply List.ne_nil_of_length_pos
      rw [List.length_drop]
      omega
    · intro x hx
      exact splitDrop_no_nl blob x (by rw [hL]; exact List.mem_of_mem_drop hx)
    · intro x hx
      exact hne x (List.mem_of_mem_drop hx)
  refine ⟨hsi, hemit, ?_⟩
  rw [hemit, List.length_map, List.length_drop]
  omega

/-- C6 witness: `tailLimit = 1`, a 51-line blob of `a` lines; the first
poll emits exactly the last line. -/
theorem c6_first_poll_windowing_witness :
    startIdxFor 1 ⟨[], 0, false⟩ (List.replicate 51 (str "a")) =
      (List.replicate 51 (str "a")).length - 1 ∧
    (pollStep envA 1 ⟨[], 0, false⟩ (joinNl (List.replicate 51 (str "a")))).1 =
      ((List.replicate 51 (str "a")).drop 50).map
        (fun x => parseLogLine envA (trimSpace x)) ∧
    ((pollStep envA 1 ⟨[], 0, false⟩
        (joinNl (List.replicate 51 (str "a")))).1).length = 1 :=
  c6_first_poll_windowing envA 1 ⟨[], 0, false⟩
    (joinNl (List.replicate 51 (str "a"))) (List.replicate 51 (str "a"))
    (by decide) rfl (by decide) (by decide) (by decide)

/-- C7, counterexample: the blob `" \n"` contains no non-empty trimmed
line, and the poll emits nothing — but the tail state is NOT left
unchanged: only the single trailing empty field is discarded, the
surviving blank line updates `lastLine`/`prevLen`, refuting the claimed
frame condition. -/
theorem c7_empty_sequence_counterexample :
    (∀ x ∈ splitDrop (str " \n"), trimSpace x = []) ∧
    (pollStep envA 100 ⟨str "x", 5, true⟩ (str " \n")).2 ≠
      ⟨str "x", 5, true⟩ := by decide

/-- C7, amended: a poll whose prepared lines are all blank emits nothing;
the state is unchanged only in the stronger case that the prepared line
sequence itself is empty (empty blob, or a single blank line removed as
the trailing field).  Otherwise `lastLine`, `prevLen` and `initialized`
are still overwritten; blank interior lines stay in the indexed
sequence. -/
theorem c7_empty_sequence_amended (e : Env) (t : Nat) (s : TailState)
    (blob : GoString) (h : ∀ x ∈ splitDrop blob, trimSpace x = []) :
    (pollStep e t s blob).1 = [] ∧
    (splitDrop blob = [] → pollStep e t s blob = ([], s)) := by
  constructor
  · by_cases hnil : splitDrop blob = []
    · rw [pollStep, dif_pos hnil]
    · rw [pollStep_eq_of_ne e t s blob _ rfl hnil]
      by_cases hlt : startIdxFor t s (splitDrop blob) < (splitDrop blob).length
      · rw [if_pos hlt]
        have hMne : (splitDrop blob).drop
            (startIdxFor t s (splitDrop blob)) ≠ [] := by
          apply List.ne_nil_of_length_pos
          rw [List.length_drop]
          omega
        rw [displayFormattedLogs_join e _ hMne
          (fun x hx => splitDrop_no_nl blob x (List.mem_of_mem_drop hx))]
        have hfil : ((((splitDrop blob).drop
            (startIdxFor t s (splitDrop blob))).map trimSpace).filter
              (fun x => x ≠ [])) = [] := by
          rw [List.filter_eq_nil_iff]
          intro a ha
          rcases List.mem_map.mp ha with ⟨x, hx, rfl⟩
          simp [h x (List.mem_of_mem_drop hx)]
        rw [hfil]
        rfl
      · rw [if_neg hlt]
  · intro hnil
    rw [pollStep, dif_pos hnil]

/-- C7 witness: the blob `" \n"` (all lines blank) emits nothing, and the
unchanged-state conclusion is conditional on the prepared sequence being
empty. -/
theorem c7_empty_sequence_amended_witness :
    (∀ x ∈ splitDrop (str " \n"), trimSpace x = []) ∧
    ((pollStep envA 100 ⟨str "x", 5, true⟩ (str " \n")).1 = [] ∧
     (splitDrop (str " \n") = [] →
       pollStep envA 100 ⟨str "x", 5, true⟩ (str " \n") =
         ([], ⟨str "x", 5, true⟩))) :=
  ⟨by decide, c7_empty_sequence_amended envA 100 ⟨str "x", 5, true⟩
    (str " \n") (by decide)⟩

/-- C1, counterexample: B1 = `"a\n"`, B2 = B1 with the two lines `a`, `b`
appended.  The backward anchor scan finds the RECURRENCE of the last-seen
line `a` among the appended lines and resumes after it, so only `b` is
emitted — one record instead of the claimed two appended lines. -/
theorem c1_append_monotonicity_counterexample :
    (pollStep envA 100 (pollStep envA 100 ⟨[], 0, false⟩ (str "a\n")).2
        (str "a\na\nb\n")).1 = [parseLogLine envA (str "b")] := by decide

/-- C1, amended: pure append emits exactly the appended lines provided the
previous last line's trimmed text does not recur among the appended lines
(and the involved lines are non-blank).  Under those hypotheses the anchor
is found at the old last position and the emitted records are exactly the
appended lines, in order, with none of the original lines re-emitted. -/
theorem c1_append_monotonicity_amended (e : Env) (t : Nat) (s0 : TailState)
    (b1 b2 : GoString) (l1 k : List GoString) (la : GoString)
    (h1 : splitDrop b1 = l1) (hlast : l1.getLast? = some la)
    (h2 : splitDrop b2 = l1 ++ k)
    (hta : trimSpace la ≠ [])
    (hnotin : trimSpace la ∉ k.map trimSpace)
    (hk : ∀ x ∈ k, trimSpace x ≠ []) :
    (pollStep e t (pollStep e t s0 b1).2 b2).1 =
      k.map (fun x => parseLogLine e (trimSpace x)) := by
  have hl1ne : l1 ≠ [] := by
    intro hn
    subst hn
    simp at hlast
  have hgl : l1.getLast hl1ne = la := by
    have h := List.getLast?_eq_getLast l1 hl1ne
    rw [hlast] at h
    exact (Option.some.injEq _ _).mp h.symm
  have hs1 : (pollStep e t s0 b1).2 = ⟨la, l1.length, true⟩ := by
    rw [pollStep_eq_of_ne e t s0 b1 l1 h1 hl1ne]
    show (⟨l1.getLast hl1ne, l1.length, true⟩ : TailState) = _
    rw [hgl]
  rw [hs1]
  have hl12ne : l1 ++ k ≠ [] := by simp [hl1ne]
  rw [pollStep_eq_of_ne e t ⟨la, l1.length, true⟩ b2 (l1 ++ k) h2 hl12ne]
  have hlane : la ≠ [] := by
    intro hn
    rw [hn] at hta
    exact hta rfl
  have hscan : scanBack (trimSpace la) (l1 ++ k) = some (l1.length - 1) := by
    rw [scanBack_append _ l1 k (fun x hx hxeq =>
      hnotin (by rw [← hxeq]; exact List.mem_map_of_mem trimSpace hx))]
    exact scanBack_getLast _ l1 la hlast rfl
  have hpos : 0 < l1.length := List.length_pos.mpr hl1ne
  have hanchor : anchorStart ⟨la, l1.length, true⟩ (l1 ++ k) = l1.length := by
    rw [anchorStart, if_pos (show (⟨la, l1.length, true⟩ : TailState).lastLine ≠ [] from hlane)]
    rw [hscan]
    have : l1.length - 1 + 1 = l1.length := by omega
    simp [this]
  have hsi : startIdxFor t ⟨la, l1.length, true⟩ (l1 ++ k) = l1.length := by
    rw [startIdxFor, if_neg (by simp), hanchor, if_neg (by omega)]
  rw [hsi]
  cases k with
  | nil =>
    rw [if_neg (show ¬ l1.length < (l1 ++ ([] : List GoString)).length by simp)]
    rfl
  | cons k0 ks =>
    rw [if_pos (show l1.length < (l1 ++ k0 :: ks).length by
      simp only [List.length_append, List.length_cons]; omega)]
    rw [List.drop_left]
    exact emit_suffix e (k0 :: ks) (by simp)
      (fun x hx => splitDrop_no_nl b2 x (by rw [h2]; exact List.mem_append_right l1 hx))
      hk

/-- C1 witness: B1 = `"a\n"`, B2 = `"a\nb\nc\n"` (appended lines `b`, `c`,
neither equal to the anchor `a`): exactly `b` and `c` are emitted, in
order. -/
theorem c1_append_monotonicity_witness :
    (pollStep envA 100 (pollStep envA 100 ⟨[], 0, false⟩ (str "a\n")).2
        (str "a\nb\nc\n")).1 =
      [str "b", str "c"].map (fun x => parseLogLine envA (trimSpace x)) :=
  c1_append_monotonicity_amended envA 100 ⟨[], 0, false⟩
    (str "a\n") (str "a\nb\nc\n") [str "a"] [str "b", str "c"] (str "a")
    (by decide) (by decide) (by decide) (by decide) (by decide) (by decide)

/-- C2, counterexample: two rotations violating the claimed tailLimit
bound.  First, prior blob `"a\n"` (1 line) and rotated blob
`"p\nq\nr\ns\n"` with `tailLimit = 2`: the anchor is absent but the new
blob is LONGER, so the length-delta branch emits 3 > tailLimit lines.
Second, prior blob `"w\nx\na\n"` (3 lines) and rotated blob `"a\ny\nz\n"`
(3 lines, sharing no suffix, not longer) with `tailLimit = 1`: the old
last line `a` recurs MID-blob, so the anchor branch fires and emits
`lines[1:]` — 2 > tailLimit lines. -/
theorem c2_rotation_safety_counterexample :
    ((pollStep envA 2 (pollStep envA 2 ⟨[], 0, false⟩ (str "a\n")).2
        (str "p\nq\nr\ns\n")).1).length = 3 ∧
    ((pollStep envA 1 (pollStep envA 1 ⟨[], 0, false⟩ (str "w\nx\na\n")).2
        (str "a\ny\nz\n")).1).length = 2 := by decide

/-- C2, amended: on every TRACKING-state poll of a blob with non-blank
prepared lines the differ does not fail and emits a SUFFIX of the new
blob's line sequence — never lines of B1 absent from B3, never the B1∪B3
union.  The at-most-`tailLimit` bound holds only under the stronger
conditions that the old last line's trimmed text occurs nowhere in B3 and
`len(L3) ≤ previousCount`: then the re-seed branch emits exactly the last
`min(len(L3), tailLimit)` lines.  (If the anchor text recurs anywhere in
B3 — which sharing no suffix does not preclude — the anchor branch emits
everything after its last occurrence; if `len(L3) > previousCount` the
length-delta branch emits `len(L3) - previousCount` lines; either can
exceed `tailLimit`.) -/
theorem c2_rotation_safety_amended (e : Env) (t : Nat) (s : TailState)
    (b3 : GoString) (l3 : List GoString)
    (h3 : splitDrop b3 = l3) (hinit : s.initialized = true) (hl3 : l3 ≠ [])
    (hne : ∀ x ∈ l3, trimSpace x ≠ []) :
    (∃ n, (pollStep e t s b3).1 =
        (l3.drop n).map (fun x => parseLogLine e (trimSpace x))) ∧
    (l3.length ≤ s.prevLen → 0 < t →
      trimSpace s.lastLine ∉ l3.map trimSpace →
      (pollStep e t s b3).1 =
        (l3.drop (l3.length - min l3.length t)).map
          (fun x => parseLogLine e (trimSpace x)) ∧
      ((pollStep e t s b3).1).length ≤ t) := by
  constructor
  · rw [pollStep_eq_of_ne e t s b3 l3 h3 hl3]
    by_cases hlt : startIdxFor t s l3 < l3.length
    · refine ⟨startIdxFor t s l3, ?_⟩
      rw [if_pos hlt]
      apply emit_suffix
      · apply List.ne_nil_of_length_pos
        rw [List.length_drop]
        omega
      · intro x hx
        exact splitDrop_no_nl b3 x (by rw [h3]; exact List.mem_of_mem_drop hx)
      · intro x hx
        exact hne x (List.mem_of_mem_drop hx)
    · refine ⟨l3.length, ?_⟩
      rw [if_neg hlt, List.drop_length]
      rfl
  · intro hlen ht hanch
    have hanchor : anchorStart s l3 = 0 := by
      rw [anchorStart]
      by_cases hll : s.lastLine ≠ []
      · rw [if_pos hll, scanBack_eq_none _ l3 (fun x hx hxeq =>
          hanch (by rw [← hxeq]; exact List.mem_map_of_mem trimSpace hx))]
      · rw [if_neg hll]
    have hsi : startIdxFor t s l3 =
        if 0 < t ∧ t < l3.length then l3.length - t else 0 := by
      rw [startIdxFor, if_neg (by simp [hinit]), if_pos hanchor,
        if_neg (by omega)]
    have hemit : (pollStep e t s b3).1 =
        (l3.drop (l3.length - min l3.length t)).map
          (fun x => parseLogLine e (trimSpace x)) := by
      rw [pollStep_eq_of_ne e t s b3 l3 h3 hl3, hsi]
      by_cases hlt : t < l3.length
      · rw [if_pos (show 0 < t ∧ t < l3.length from ⟨ht, hlt⟩)]
        have hmin : l3.length - min l3.length t = l3.length - t := by omega
        rw [hmin, if_pos (show l3.length - t < l3.length by omega)]
        apply emit_suffix
        · apply List.ne_nil_of_length_pos
          rw [List.length_drop]
          omega
        · intro x hx
          exact splitDrop_no_nl b3 x
            (by rw [h3]; exact List.mem_of_mem_drop hx)
        · intro x hx
          exact hne x (List.mem_of_mem_drop hx)
      · have hcond : ¬(0 < t ∧ t < l3.length) := fun hc => hlt hc.2
        rw [if_neg hcond]
        have hmin : l3.length - min l3.length t = 0 := by omega
        rw [hmin, if_pos (List.length_pos.mpr hl3)]
        simp only [List.drop_zero]
        exact emit_suffix e l3 hl3
          (fun x hx => splitDrop_no_nl b3 x (by rw [h3]; exact hx)) hne
    refine ⟨hemit, ?_⟩
    rw [hemit, List.length_map, List.length_drop]
    omega

/-- C2 witness: prior state records 5 lines with anchor `z`; the rotated
blob `"p\nq\n"` (2 non-blank lines, anchor absent) emits a suffix of its
own lines, and under the re-seed conditions emits exactly its 2 lines,
within the window `tailLimit = 2`. -/
theorem c2_rotation_safety_witness :
    (∃ n, (pollStep envA 2 ⟨str "z", 5, true⟩ (str "p\nq\n")).1 =
        ([str "p", str "q"].drop n).map
          (fun x => parseLogLine envA (trimSpace x))) ∧
    (([str "p", str "q"] : List GoString).length ≤ 5 → 0 < 2 →
      trimSpace (str "z") ∉ [str "p", str "q"].map trimSpace →
      (pollStep envA 2 ⟨str "z", 5, true⟩ (str "p\nq\n")).1 =
        ([str "p", str "q"].drop
          (([str "p", str "q"] : List GoString).length -
            min ([str "p", str "q"] : List GoString).length 2)).map
          (fun x => parseLogLine envA (trimSpace x)) ∧
      ((pollStep envA 2 ⟨str "z", 5, true⟩ (str "p\nq\n")).1).length ≤ 2) :=
  c2_rotation_safety_amended envA 2 ⟨str "z", 5, true⟩ (str "p\nq\n")
    [str "p", str "q"] (by decide) rfl (by decide) (by decide)
